import Mathlib

/-!
Verification of the `python-node-deepresearch` agent core against its design
specification.  The Python sources (`deepresearch/agent.py`,
`deepresearch/utils/url_tools.py`, `deepresearch/tools/evaluator.py`,
`deepresearch/tools/jina_dedup.py`, `deepresearch/utils/text_tools.py`) are
shallowly embedded below: pure functions become Lean functions, fallible code
returns `Option`/`Except`, external collaborators (LLM, search, embedding,
rerank, page fetch, spam classifier) become explicit oracle parameters, and
Python `float` arithmetic is modelled by exact rational arithmetic
(`PyFloat` below); none of the checked claims depends on floating-point
rounding.

Dictionary state (`all_urls`) is modelled as an insertion-ordered association
list, matching CPython dict semantics.  Where CPython library routines
(`urllib.parse.urlparse`, `unquote`, `quote`, `parse_qsl`, `urlencode`) are
part of the program behaviour they are embedded as well, restricted to the
semantics CPython gives to the URL strings this program manipulates.
-/

deriving instance DecidableEq for Except

namespace DeepResearch

/-! ### Python string primitives -/

/-- The ASCII whitespace characters removed by Python `str.strip()`.
(The URL strings handled here contain no non-ASCII whitespace.) -/
def pyIsSpace (c : Char) : Bool :=
  c == ' ' || c == '\t' || c == '\n' || c == '\r' ||
    c == Char.ofNat 11 || c == Char.ofNat 12

/-- Python `str.strip()`. -/
def pyStrip (s : String) : String :=
  ⟨((s.data.dropWhile pyIsSpace).reverse.dropWhile pyIsSpace).reverse⟩

def charsIsPrefixOf : List Char → List Char → Bool
  | [], _ => true
  | _ :: _, [] => false
  | a :: as, b :: bs => a == b && charsIsPrefixOf as bs

def charsIsInfixOf (n : List Char) : List Char → Bool
  | [] => charsIsPrefixOf n []
  | c :: rest => charsIsPrefixOf n (c :: rest) || charsIsInfixOf n rest

/-- Python `needle in hay` for strings (substring containment). -/
def substrOf (needle hay : String) : Bool :=
  charsIsInfixOf needle.data hay.data

/-- Python `s.startswith(pre)`. -/
def strStartsWith (s pre : String) : Bool :=
  charsIsPrefixOf pre.data s.data

/-- Python `s.replace(" ", "")` (the only `replace` the sources use; with a
single-character needle and empty replacement it is exactly a filter). -/
def removeSpaces (s : String) : String :=
  ⟨s.data.filter (· ≠ ' ')⟩

/-- Python `s.split(sep)` for a one-character separator (the sources split
only on `"/"` and `"&"`). -/
def splitOnChar (sep : Char) : List Char → List (List Char)
  | [] => [[]]
  | c :: rest =>
    let r := splitOnChar sep rest
    if c = sep then [] :: r
    else
      match r with
      | h :: t => (c :: h) :: t
      | [] => [[c]]

/-! ### Exact rational arithmetic standing in for Python floats

CPython floats are IEEE doubles; the checked claims do not depend on
rounding, so arithmetic is modelled exactly.  Fractions are kept
unnormalized (numerator and positive denominator); all comparisons go
through cross-multiplication, so every operation reduces inside the Lean
kernel. -/

structure PyFloat where
  num : Int
  den : Int
deriving Repr, DecidableEq

/-- Build the fraction `n / d`. -/
def pf (n : Int) (d : Int := 1) : PyFloat := ⟨n, d⟩

instance : OfNat PyFloat n := ⟨⟨(n : Int), 1⟩⟩

def PyFloat.add (a b : PyFloat) : PyFloat :=
  ⟨a.num * b.den + b.num * a.den, a.den * b.den⟩

def PyFloat.mul (a b : PyFloat) : PyFloat :=
  ⟨a.num * b.num, a.den * b.den⟩

def PyFloat.div (a b : PyFloat) : PyFloat :=
  ⟨a.num * b.den, a.den * b.num⟩

def PyFloat.pow (a : PyFloat) : Nat → PyFloat
  | 0 => 1
  | n + 1 => (PyFloat.pow a n).mul a

instance : Add PyFloat := ⟨PyFloat.add⟩
instance : Mul PyFloat := ⟨PyFloat.mul⟩

/-- `a ≤ b` on fractions with nonzero denominators of any sign:
`(a.num·b.den − b.num·a.den) · (a.den·b.den) ≤ 0`. -/
def PyFloat.leb (a b : PyFloat) : Bool :=
  (a.num * b.den - b.num * a.den) * (a.den * b.den) ≤ 0

def PyFloat.ltb (a b : PyFloat) : Bool :=
  (a.num * b.den - b.num * a.den) * (a.den * b.den) < 0

/-- Value equality of fractions (`a.num·b.den = b.num·a.den`). -/
def PyFloat.eqb (a b : PyFloat) : Bool :=
  a.num * b.den = b.num * a.den

/-- Python `max(x, y)`: `y` only when `y > x`. -/
def PyFloat.maxf (x y : PyFloat) : PyFloat :=
  if PyFloat.ltb x y then y else x

/-- Python `min(x, y)`: `y` only when `y < x`. -/
def PyFloat.minf (x y : PyFloat) : PyFloat :=
  if PyFloat.ltb y x then y else x

/-- Case-insensitive ASCII lowering of a character (Python `str.lower()` on
the ASCII range used by hostnames and schemes). -/
def pyLowerChar (c : Char) : Char :=
  if 'A' ≤ c ∧ c ≤ 'Z' then Char.ofNat (c.toNat + 32) else c

/-- Python `str.lower()` (ASCII range). -/
def pyLower (s : String) : String :=
  ⟨s.data.map pyLowerChar⟩

def isAsciiDigit (c : Char) : Bool := '0' ≤ c && c ≤ '9'

def isAsciiAlpha (c : Char) : Bool :=
  ('a' ≤ c && c ≤ 'z') || ('A' ≤ c && c ≤ 'Z')

def isHexDigitChar (c : Char) : Bool :=
  isAsciiDigit c || ('a' ≤ c && c ≤ 'f') || ('A' ≤ c && c ≤ 'F')

def hexVal (c : Char) : Nat :=
  if isAsciiDigit c then c.toNat - '0'.toNat
  else if 'a' ≤ c ∧ c ≤ 'f' then c.toNat - 'a'.toNat + 10
  else if 'A' ≤ c ∧ c ≤ 'F' then c.toNat - 'A'.toNat + 10
  else 0

def hexDigitUpper (n : Nat) : Char :=
  if n < 10 then Char.ofNat ('0'.toNat + n) else Char.ofNat ('A'.toNat + n - 10)

/-- Two-digit uppercase hex rendering of a byte, as produced by
`urllib.parse.quote`. -/
def byteHexUpper (b : Nat) : List Char :=
  [hexDigitUpper (b / 16), hexDigitUpper (b % 16)]

/-- UTF-8 encoding of a single character (CPython `str.encode("utf-8")`). -/
def utf8Bytes (c : Char) : List Nat :=
  let n := c.toNat
  if n < 0x80 then [n]
  else if n < 0x800 then
    [0xC0 + n / 64, 0x80 + n % 64]
  else if n < 0x10000 then
    [0xE0 + n / 4096, 0x80 + (n / 64) % 64, 0x80 + n % 64]
  else
    [0xF0 + n / 262144, 0x80 + (n / 4096) % 64, 0x80 + (n / 64) % 64, 0x80 + n % 64]

def isUtf8Cont (b : Nat) : Bool := 0x80 ≤ b && b ≤ 0xBF

/-- UTF-8 decoding with `errors="replace"` (CPython `bytes.decode("utf-8",
"replace")`): malformed sequences become U+FFFD, consuming the maximal
valid subpart.  The fuel argument only serves termination; every step
consumes at least one byte, so fuel = length of the byte list suffices. -/
def utf8DecodeReplaceAux : Nat → List Nat → List Char
  | 0, _ => []
  | _, [] => []
  | fuel + 1, b :: rest =>
    if b < 0x80 then Char.ofNat b :: utf8DecodeReplaceAux fuel rest
    else if 0xC2 ≤ b ∧ b ≤ 0xDF then
      match rest with
      | b2 :: rest2 =>
        if isUtf8Cont b2 then
          Char.ofNat ((b - 0xC0) * 64 + (b2 - 0x80)) :: utf8DecodeReplaceAux fuel rest2
        else Char.ofNat 0xFFFD :: utf8DecodeReplaceAux fuel rest
      | [] => [Char.ofNat 0xFFFD]
    else if 0xE0 ≤ b ∧ b ≤ 0xEF then
      match rest with
      | b2 :: rest2 =>
        let okB2 :=
          if b = 0xE0 then 0xA0 ≤ b2 && b2 ≤ 0xBF
          else if b = 0xED then 0x80 ≤ b2 && b2 ≤ 0x9F
          else isUtf8Cont b2
        if okB2 then
          match rest2 with
          | b3 :: rest3 =>
            if isUtf8Cont b3 then
              Char.ofNat ((b - 0xE0) * 4096 + (b2 - 0x80) * 64 + (b3 - 0x80)) ::
                utf8DecodeReplaceAux fuel rest3
            else Char.ofNat 0xFFFD :: utf8DecodeReplaceAux fuel rest2
          | [] => [Char.ofNat 0xFFFD]
        else Char.ofNat 0xFFFD :: utf8DecodeReplaceAux fuel rest
      | [] => [Char.ofNat 0xFFFD]
    else if 0xF0 ≤ b ∧ b ≤ 0xF4 then
      match rest with
      | b2 :: rest2 =>
        let okB2 :=
          if b = 0xF0 then 0x90 ≤ b2 && b2 ≤ 0xBF
          else if b = 0xF4 then 0x80 ≤ b2 && b2 ≤ 0x8F
          else isUtf8Cont b2
        if okB2 then
          match rest2 with
          | b3 :: rest3 =>
            if isUtf8Cont b3 then
              match rest3 with
              | b4 :: rest4 =>
                if isUtf8Cont b4 then
                  Char.ofNat ((b - 0xF0) * 262144 + (b2 - 0x80) * 4096 +
                    (b3 - 0x80) * 64 + (b4 - 0x80)) :: utf8DecodeReplaceAux fuel rest4
                else Char.ofNat 0xFFFD :: utf8DecodeReplaceAux fuel rest3
              | [] => [Char.ofNat 0xFFFD]
            else Char.ofNat 0xFFFD :: utf8DecodeReplaceAux fuel rest2
          | [] => [Char.ofNat 0xFFFD]
        else Char.ofNat 0xFFFD :: utf8DecodeReplaceAux fuel rest
      | [] => [Char.ofNat 0xFFFD]
    else Char.ofNat 0xFFFD :: utf8DecodeReplaceAux fuel rest

def utf8DecodeReplace (l : List Nat) : List Char :=
  utf8DecodeReplaceAux l.length l

/-! ### `urllib.parse` percent-coding -/

/-- One token of the intermediate form of `urllib.parse.unquote`: ASCII characters
and valid `%XX` escapes contribute bytes, non-ASCII characters pass through
verbatim. -/
inductive PctTok where
  | byte (b : Nat)
  | raw (c : Char)
deriving DecidableEq

/-- Tokenize a string the way `urllib.parse.unquote` does: `%XX` with two hex
digits yields the byte `0xXX`; a `%` not followed by two hex digits stays a
literal `%` byte; other ASCII characters are their own byte; non-ASCII
characters pass through undecoded. -/
def pctTokensAux : Nat → List Char → List PctTok
  | 0, _ => []
  | _, [] => []
  | fuel + 1, '%' :: c1 :: c2 :: rest =>
    if isHexDigitChar c1 && isHexDigitChar c2 then
      .byte (16 * hexVal c1 + hexVal c2) :: pctTokensAux fuel rest
    else .byte 0x25 :: pctTokensAux fuel (c1 :: c2 :: rest)
  | fuel + 1, '%' :: rest => .byte 0x25 :: pctTokensAux fuel rest
  | fuel + 1, c :: rest =>
    (if c.toNat < 0x80 then PctTok.byte c.toNat else PctTok.raw c) :: pctTokensAux fuel rest

def pctTokens (l : List Char) : List PctTok := pctTokensAux l.length l

/-- Flush accumulated bytes through the UTF-8 replace-decoder and emit them
before a raw character (Python decodes each maximal byte run). -/
def pctAssemble (acc : List Nat) : List PctTok → List Char
  | [] => utf8DecodeReplace acc.reverse
  | .byte b :: rest => pctAssemble (b :: acc) rest
  | .raw c :: rest => utf8DecodeReplace acc.reverse ++ c :: pctAssemble [] rest

/-- CPython `urllib.parse.unquote(s)` with the default UTF-8 / replace
error handling. -/
def pyUnquote (s : String) : String :=
  ⟨pctAssemble [] (pctTokens s.data)⟩

/-- The characters `urllib.parse.quote` never escapes (`_ALWAYS_SAFE`):
ASCII letters, digits, and `_.-~`. -/
def alwaysSafeChar (c : Char) : Bool :=
  isAsciiAlpha c || isAsciiDigit c || c == '_' || c == '.' || c == '-' || c == '~'

/-- CPython `urllib.parse.quote(s, safe)`: keep always-safe characters and
the characters of `safe`; percent-encode everything else as uppercase-hex
UTF-8 bytes. -/
def pyQuoteSafe (safe : List Char) (s : String) : String :=
  ⟨(s.data.map fun c =>
      if alwaysSafeChar c || safe.contains c then [c]
      else (utf8Bytes c).foldr (fun b acc => '%' :: byteHexUpper b ++ acc) []).flatten⟩

/-- CPython `urllib.parse.quote(s)` with its default `safe="/"`. -/
def pyQuote (s : String) : String := pyQuoteSafe ['/'] s

/-- CPython `urllib.parse.quote_plus(s)` with `safe=""`: spaces become `+`,
everything not always-safe is percent-encoded. -/
def pyQuotePlus (s : String) : String :=
  ⟨(s.data.map fun c =>
      if c == ' ' then ['+']
      else if alwaysSafeChar c then [c]
      else (utf8Bytes c).foldr (fun b acc => '%' :: byteHexUpper b ++ acc) []).flatten⟩

/-- Find the first occurrence of `sep` and split there (Python
`str.split(sep, 1)` when it returns two parts). -/
def splitOnceChar (sep : Char) : List Char → Option (List Char × List Char)
  | [] => none
  | c :: rest =>
    if c = sep then some ([], rest)
    else (splitOnceChar sep rest).map fun p => (c :: p.1, p.2)

/-- CPython `urllib.parse.parse_qsl(qs)` with default arguments: split on
`&`, drop empty chunks, drop chunks without `=` and chunks with an empty
value, and unquote-plus both name and value. -/
def parse_qsl (qs : String) : List (String × String) :=
  ((splitOnChar '&' qs.data).filter (· ≠ [])).filterMap fun nv =>
    match splitOnceChar '=' nv with
    | none => none
    | some (name, value) =>
      if value = [] then none
      else
        some (pyUnquote (String.mk (name.map fun c => if c = '+' then ' ' else c)),
              pyUnquote (String.mk (value.map fun c => if c = '+' then ' ' else c)))

/-- CPython `urllib.parse.urlencode(pairs)`: quote-plus each side and join
with `=` and `&`. -/
def pyUrlencode (pairs : List (String × String)) : String :=
  String.intercalate "&"
    (pairs.map fun kv => pyQuotePlus kv.1 ++ "=" ++ pyQuotePlus kv.2)

/-! ### `urllib.parse.urlparse` -/

structure PyUrl where
  scheme : String
  netloc : String
  path : String
  query : String
  fragment : String
deriving Repr, DecidableEq

def isSchemeChar (c : Char) : Bool :=
  isAsciiAlpha c || isAsciiDigit c || c == '+' || c == '-' || c == '.'

/-- CPython `urllib.parse.urlsplit`: strip C0 controls and spaces, remove
tab/CR/LF, then split off scheme, netloc, fragment, query, and path. -/
def pyUrlsplit (url : String) : PyUrl :=
  let isC0OrSpace := fun c : Char => c.toNat ≤ 0x20
  let l := ((url.data.dropWhile isC0OrSpace).reverse.dropWhile isC0OrSpace).reverse
  let l := l.filter fun c => ¬(c = '\t' ∨ c = '\r' ∨ c = '\n')
  let schemeRest : String × List Char :=
    match splitOnceChar ':' l with
    | some (before, after) =>
      if (match before with | c :: _ => isAsciiAlpha c | [] => false) &&
          before.all isSchemeChar then
        (pyLower ⟨before⟩, after)
      else ("", l)
    | none => ("", l)
  let scheme := schemeRest.1
  let l := schemeRest.2
  let netlocRest : String × List Char :=
    match l with
    | '/' :: '/' :: rest =>
      let nl := rest.takeWhile fun c => ¬(c = '/' ∨ c = '?' ∨ c = '#')
      (⟨nl⟩, rest.drop nl.length)
    | _ => ("", l)
  let netloc := netlocRest.1
  let l := netlocRest.2
  let lFragment : List Char × String :=
    match splitOnceChar '#' l with
    | some (a, b) => (a, ⟨b⟩)
    | none => (l, "")
  let l := lFragment.1
  let lQuery : List Char × String :=
    match splitOnceChar '?' l with
    | some (a, b) => (a, ⟨b⟩)
    | none => (l, "")
  ⟨scheme, netloc, ⟨lQuery.1⟩, lQuery.2, lFragment.2⟩

def splitAtLastSlash : List Char → Option (List Char × List Char)
  | [] => none
  | c :: rest =>
    match splitAtLastSlash rest with
    | some (b, a) => some (c :: b, a)
    | none => if c = '/' then some ([], rest) else none

/-- CPython `urllib.parse._splitparams` on a path component, returning the
path with the `;params` suffix of its last segment removed. -/
def pySplitparamsPath (path : List Char) : List Char :=
  match splitAtLastSlash path with
  | some (before, after) =>
    match splitOnceChar ';' after with
    | some (p, _) => before ++ '/' :: p
    | none => path
  | none =>
    match splitOnceChar ';' path with
    | some (p, _) => p
    | none => path

/-- CPython `urllib.parse.urlparse` (the parameters component itself is
never consulted by this program, only its removal from `path` matters). -/
def pyUrlparse (url : String) : PyUrl :=
  let u := pyUrlsplit url
  if substrOf ";" u.path then { u with path := ⟨pySplitparamsPath u.path.data⟩ } else u

def afterLastCharAux (sep : Char) : Nat → List Char → List Char
  | 0, l => l
  | fuel + 1, l =>
    match splitOnceChar sep l with
    | none => l
    | some p => afterLastCharAux sep fuel p.2

def afterLastChar (sep : Char) (l : List Char) : List Char :=
  afterLastCharAux sep l.length l

/-- CPython `SplitResult._hostinfo`: the host part and the raw port string
of a netloc (userinfo stripped, IPv6 brackets handled). -/
def pyHostinfo (netloc : String) : String × Option String :=
  let hostinfo := afterLastChar '@' netloc.data
  match splitOnceChar '[' hostinfo with
  | some (_, bracketed) =>
    let hp : List Char × List Char :=
      match splitOnceChar ']' bracketed with
      | some (h, p) => (h, p)
      | none => (bracketed, [])
    let port : List Char :=
      match splitOnceChar ':' hp.2 with
      | some (_, p) => p
      | none => []
    (⟨hp.1⟩, if port = [] then none else some ⟨port⟩)
  | none =>
    let hp : List Char × List Char :=
      match splitOnceChar ':' hostinfo with
      | some (h, p) => (h, p)
      | none => (hostinfo, [])
    (⟨hp.1⟩, if hp.2 = [] then none else some ⟨hp.2⟩)

def natOfDigits (l : List Char) : Nat :=
  l.foldl (fun acc c => acc * 10 + (c.toNat - '0'.toNat)) 0

/-- CPython `SplitResult.port`: `None` when absent, `ValueError` when the
port string is not a number in `0..65535`. -/
def pyPortVal : Option String → Except Unit (Option Nat)
  | none => .ok none
  | some s =>
    if s.data ≠ [] ∧ s.data.all isAsciiDigit then
      if natOfDigits s.data ≤ 65535 then .ok (some (natOfDigits s.data)) else .error ()
    else .error ()

/-- `url.hostname.lower() if url.hostname else ""` as used throughout
`url_tools.py` (the `hostname` property lowercases and returns `None` for an
empty host). -/
def pyHostnameOrEmpty (u : PyUrl) : String :=
  let h := (pyHostinfo u.netloc).1
  if h = "" then "" else pyLower h

/-! ### `normalize_url` (url_tools.py, lines 110-265) -/

/-- Case-insensitively match `pat` against the start of `l`, returning the
consumed original characters and the remainder. -/
def ciConsume : List Char → List Char → Option (List Char × List Char)
  | [], rest => some ([], rest)
  | _ :: _, [] => none
  | p :: ps, c :: cs =>
    if pyLowerChar c = pyLowerChar p then
      (ciConsume ps cs).map fun r => (c :: r.1, r.2)
    else none

/-- Hand-compiled recognizer for the case-insensitive regex
`^(https?://(www\.)?(x\.com|twitter\.com)/([^/]+)/status/(\d+))/analytics(/)?(\?.*)?(#.*)?$`
of `normalize_url`; on a match it returns the rewritten URL (group 1 plus
the query/fragment tail, which the greedy `.*` groups capture whole). -/
def xAnalyticsMatch (l : List Char) : Option (List Char) := do
  let (g1, r) ← ciConsume "http".data l
  let sPart : List Char × List Char :=
    match r with
    | c :: rest => if pyLowerChar c = 's' then ([c], rest) else ([], c :: rest)
    | [] => ([], [])
  let (g2, r) := sPart
  let (g3, r) ← ciConsume "://".data r
  let wwwPart : List Char × List Char :=
    match ciConsume "www.".data r with
    | some (w, rest) => (w, rest)
    | none => ([], r)
  let (g4, r) := wwwPart
  let (g5, r) ←
    match ciConsume "x.com".data r with
    | some v => some v
    | none => ciConsume "twitter.com".data r
  let (g6, r) ← ciConsume "/".data r
  let user := r.takeWhile (· ≠ '/')
  if user = [] then none
  else do
    let r := r.drop user.length
    let (g7, r) ← ciConsume "/status/".data r
    let digits := r.takeWhile isAsciiDigit
    if digits = [] then none
    else do
      let r := r.drop digits.length
      let (_, r) ← ciConsume "/analytics".data r
      let r := match r with
        | '/' :: rest => rest
        | other => other
      let base := g1 ++ g2 ++ g3 ++ g4 ++ g5 ++ g6 ++ user ++ g7 ++ digits
      match r with
      | [] => some base
      | c :: _ =>
        if (c = '?' ∨ c = '#') ∧ ¬r.contains '\n' then some (base ++ r) else none

/-- The options dictionary of `normalize_url`; every call site in the
repository uses the defaults. -/
structure NormOptions where
  remove_anchors : Bool := true
  remove_session_ids : Bool := true
  remove_utm_params : Bool := true
  remove_tracking_params : Bool := true
  remove_x_analytics : Bool := true

/-- The session-id query keys removed by `normalize_url` (full-match,
case-insensitive). -/
def sessionIdKeys : List String :=
  ["s", "session", "sid", "sessionid", "phpsessid", "jsessionid",
   "aspsessionid", "asp.net_sessionid"]

def trackingKeysFixed : List String :=
  ["ref", "referrer", "fbclid", "gclid", "cid", "mcid", "source", "medium",
   "campaign", "term", "content", "sc_rid"]

/-- The tracking-parameter regex
`^(ref|referrer|fbclid|gclid|cid|mcid|source|medium|campaign|term|content|sc_rid|mc_[a-z]+)$`
(case-insensitive). -/
def isTrackingKey (key : String) : Bool :=
  let k := pyLower key
  trackingKeysFixed.contains k ||
    (strStartsWith k "mc_" && k.data.drop 3 ≠ [] &&
      (k.data.drop 3).all fun c => 'a' ≤ c && c ≤ 'z')

/-- `re.sub(r"/+", "/", path)`.  Fuel only serves termination; each step
consumes at least one character. -/
def collapseSlashesAux : Nat → List Char → List Char
  | 0, _ => []
  | _, [] => []
  | fuel + 1, '/' :: rest => '/' :: collapseSlashesAux fuel (rest.dropWhile (· = '/'))
  | fuel + 1, c :: rest => c :: collapseSlashesAux fuel rest

def collapseSlashes (l : List Char) : List Char := collapseSlashesAux l.length l

/-- `re.sub(r"/+$", "", path)`. -/
def dropTrailingSlashes (l : List Char) : List Char :=
  (l.reverse.dropWhile (· = '/')).reverse

/-- Python code-point comparison `str < str`. -/
def charsLt : List Char → List Char → Bool
  | [], [] => false
  | [], _ :: _ => true
  | _ :: _, [] => false
  | a :: as, b :: bs => a < b || (a = b && charsLt as bs)

def insertAscByKey (x : String × String) :
    List (String × String) → List (String × String)
  | [] => [x]
  | y :: ys => if charsLt x.1.data y.1.data then x :: y :: ys else y :: insertAscByKey x ys

/-- Python `list.sort(key=lambda x: x[0])`: stable ascending sort by the
parameter name. -/
def sortParamsByKey (l : List (String × String)) : List (String × String) :=
  l.foldl (fun acc x => insertAscByKey x acc) []

/-- `normalize_url` (url_tools.py lines 110-265): canonicalize a URL string
or fail (`None` models both the explicit `raise` paths and any caught
exception, all of which produce a `None` return). -/
def normalize_url (url_string : String) (options : NormOptions := {}) : Option String :=
  let s := pyStrip (removeSpaces url_string)
  if s = "" then none
  else if strStartsWith s "https://google.com/" || strStartsWith s "https://www.google.com" then none
  else if substrOf "example.com" s then none
  else
    let s :=
      if options.remove_x_analytics then
        match xAnalyticsMatch s.data with
        | some r => (⟨r⟩ : String)
        | none => s
      else s
    let url := pyUrlparse s
    if url.scheme ∉ ["http", "https"] then none
    else
      let hostname := pyHostnameOrEmpty url
      let hostname := if strStartsWith hostname "www." then hostname.drop 4 else hostname
      match pyPortVal (pyHostinfo url.netloc).2 with
      | .error _ => none
      | .ok port =>
        let port_str :=
          if (url.scheme = "http" ∧ port = some 80) ∨
             (url.scheme = "https" ∧ port = some 443) then ""
          else match port with
            | some p => ":" ++ toString p
            | none => ""
        let segments := splitOnChar '/' url.path.data
        let path := String.intercalate "/" (segments.map fun seg => pyUnquote (String.mk seg))
        let path := (⟨collapseSlashes path.data⟩ : String)
        let path := let p := (⟨dropTrailingSlashes path.data⟩ : String)
                    if p = "" then "/" else p
        let filtered := (parse_qsl url.query).filterMap fun kv =>
          if kv.1 = "" then none
          else if options.remove_session_ids && sessionIdKeys.contains (pyLower kv.1) then none
          else if options.remove_utm_params && strStartsWith (pyLower kv.1) "utm_" then none
          else if options.remove_tracking_params && isTrackingKey kv.1 then none
          else if kv.2 = "" then some kv
          else
            let d := pyUnquote kv.2
            if pyQuote d = kv.2 then some (kv.1, d) else some kv
        let query := pyUrlencode (sortParamsByKey filtered)
        let fragment :=
          if options.remove_anchors then ""
          else if url.fragment = "" ∨ url.fragment = "top" ∨ url.fragment = "/" then ""
          else
            let d := pyUnquote url.fragment
            if pyQuote d = url.fragment then d else url.fragment
        let res := url.scheme ++ "://" ++ hostname ++ port_str ++ path
        let res := if query ≠ "" then res ++ "?" ++ query else res
        let res := if fragment ≠ "" ∧ ¬options.remove_anchors then res ++ "#" ++ fragment else res
        some res

/-- `extract_url_parts` (url_tools.py lines 289-299). -/
def extract_url_parts (url_str : String) : String × String :=
  let u := pyUrlparse url_str
  (pyHostnameOrEmpty u, u.path)

/-! ### `smart_merge_strings` (text_tools.py lines 198-242) -/

/-- The descending overlap search of `smart_merge_strings`: the largest
`k ≤ bound` with the last `k` characters of `s1` equal to the first `k`
characters of `s2`, else `0`. -/
def overlapSearch (s1 s2 : List Char) : Nat → Nat
  | 0 => 0
  | k + 1 =>
    if s1.drop (s1.length - (k + 1)) = s2.take (k + 1) then k + 1
    else overlapSearch s1 s2 k

/-- `smart_merge_strings`: keep a superset, else splice at the longest
suffix/prefix overlap, else concatenate. -/
def smart_merge_strings (str1 str2 : String) : String :=
  if str1 = "" then str2
  else if str2 = "" then str1
  else if substrOf str1 str2 then str2
  else if substrOf str2 str1 then str1
  else
    let best := overlapSearch str1.data str2.data (min str1.length str2.length)
    if best > 0 then ⟨str1.data.take (str1.length - best) ++ str2.data⟩
    else str1 ++ str2

/-! ### URL ledger data model -/

/-- `SearchSnippet` (model_types.py): ledger entries always carry a numeric
weight after insertion, modelled as `Rat`. -/
structure SearchSnippet where
  title : String
  url : String
  description : String
  weight : PyFloat := 0
  date : Option String := none
deriving Repr, DecidableEq

/-- `BoostedSearchSnippet` (model_types.py). -/
structure BoostedSearchSnippet extends SearchSnippet where
  freq_boost : PyFloat
  hostname_boost : PyFloat
  path_boost : PyFloat
  jina_rerank_boost : PyFloat
  final_score : PyFloat
  score : PyFloat
  merged : String
deriving Repr, DecidableEq

/-- Insertion-ordered dictionary (CPython dict): update in place, insert at
the end. -/
def odSet (m : List (String × α)) (k : String) (v : α) : List (String × α) :=
  match m with
  | [] => [(k, v)]
  | kv0 :: rest => if kv0.1 = k then (kv0.1, v) :: rest else kv0 :: odSet rest k v

def odGet? (m : List (String × α)) (k : String) : Option α :=
  (m.find? fun kv => kv.1 == k).map (·.2)

def odContains (m : List (String × α)) (k : String) : Bool :=
  m.any fun kv => kv.1 == k

def odKeys (m : List (String × α)) : List String := m.map (·.1)

abbrev UrlDict := List (String × SearchSnippet)

/-- `add_to_all_urls` (url_tools.py lines 497-519): normalize, then insert
with `weight = weight_delta`, or accumulate weight and smart-merge the
description.  Returns the `1`/`0` of the Python function plus the updated dict. -/
def add_to_all_urls (r : SearchSnippet) (all_urls : UrlDict)
    (weight_delta : PyFloat := 1) : Nat × UrlDict :=
  match normalize_url r.url with
  | none => (0, all_urls)
  | some nu =>
    if odContains all_urls nu then
      (0, odSet all_urls nu
        (match odGet? all_urls nu with
         | some old =>
           { old with
             weight := old.weight.add weight_delta,
             description := smart_merge_strings old.description r.description }
         | none => r))
    else
      (1, all_urls ++ [(nu, { r with weight := weight_delta })])

/-- `filter_urls` (url_tools.py lines 268-286). -/
def filter_urls (all_urls : UrlDict) (visited_urls bad_hostnames only_hostnames : List String) :
    List SearchSnippet :=
  all_urls.filterMap fun kv =>
    if ¬visited_urls.contains kv.1 ∧
       ¬bad_hostnames.contains (extract_url_parts kv.1).1 ∧
       (only_hostnames = [] ∨ only_hostnames.contains (extract_url_parts kv.1).1)
    then some kv.2 else none

structure UrlCounts where
  hostname_count : List (String × Nat)
  path_prefix_count : List (String × Nat)
  total_urls : Nat
deriving Repr, DecidableEq

/-- `count_url_parts` (url_tools.py lines 302-330). -/
def count_url_parts (url_items : List SearchSnippet) : UrlCounts :=
  url_items.foldl
    (fun acc item =>
      if item.url = "" then acc
      else
        let parts := extract_url_parts item.url
        let segs := ((splitOnChar '/' parts.2.data).filter (· ≠ [])).map String.mk
        let pcounts := (List.range segs.length).foldl
          (fun pc i =>
            let pr := "/" ++ String.intercalate "/" (segs.take (i + 1))
            odSet pc pr ((odGet? pc pr).getD 0 + 1))
          acc.path_prefix_count
        { hostname_count :=
            odSet acc.hostname_count parts.1 ((odGet? acc.hostname_count parts.1).getD 0 + 1),
          path_prefix_count := pcounts,
          total_urls := acc.total_urls + 1 })
    ⟨[], [], 0⟩

/-- `normalize_count` (url_tools.py lines 333-335). -/
def normalize_count (count total : Nat) : PyFloat :=
  if total > 0 then pf (count : Int) (total : Int) else 0

/-- `keep_k_per_hostname` (url_tools.py lines 592-609). -/
def keep_k_per_hostname (results : List BoostedSearchSnippet) (k : Nat) :
    List BoostedSearchSnippet :=
  (results.foldl
    (fun (acc : List (String × Nat) × List BoostedSearchSnippet) r =>
      let hostname := (extract_url_parts r.url).1
      let cnt := (odGet? acc.1 hostname).getD 0
      if cnt < k then (odSet acc.1 hostname (cnt + 1), acc.2 ++ [r])
      else (odSet acc.1 hostname cnt, acc.2))
    ([], [])).2

/-! ### `rank_urls` (url_tools.py lines 338-462)

The rerank collaborator (`rerank_documents`) is an oracle parameter: `.ok`
is the `results` list of a successful response, `.error` is any raised exception.
In the Python source `jina_rerank_boosts` is assigned only on line 386,
*after* the awaited rerank call succeeds; when the call raises (the `except`
swallows it) or when the question is empty (no rerank attempted), the later
read `jina_rerank_boosts[i]` on line 436 raises `UnboundLocalError`, which
propagates out of `rank_urls`.  The index `i` of the scoring loop is shadowed by
the inner path-segment loop, so line 436 reads the boost at the index of the
last path segment of the candidate (its own index only when its path
has no segments); an out-of-range read raises `IndexError`. -/

structure RerankResult where
  index : Nat
  relevance_score : PyFloat
deriving Repr, DecidableEq

structure RankOptions where
  freq_factor : PyFloat := pf 1 2
  hostname_boost_factor : PyFloat := pf 1 2
  path_boost_factor : PyFloat := pf 2 5
  decay_factor : PyFloat := pf 4 5
  jina_rerank_factor : PyFloat := pf 4 5
  min_boost : PyFloat := 0
  max_boost : PyFloat := 5
  question : String := ""
  boost_hostnames : List String := []

/-- Step 1 of `rank_urls`: record of unique merged contents with their
original indices (insertion-ordered, CPython dict). -/
def uniqueContentMap (url_items : List SearchSnippet) : List (String × List Nat) :=
  url_items.enum.foldl
    (fun m p =>
      let merged := smart_merge_strings p.2.title p.2.description
      match odGet? m merged with
      | none => m ++ [(merged, [p.1])]
      | some is => odSet m merged (is ++ [p.1]))
    []

/-- The boost-assignment loop over rerank results (url_tools.py lines
388-393).  An out-of-range `unique_indices_map[index]` raises `IndexError`,
caught by the surrounding `except`, leaving the boosts assigned so far. -/
def applyRerankBoosts (uim : List (List Nat)) (factor : PyFloat) :
    List RerankResult → List PyFloat → List PyFloat
  | [], boosts => boosts
  | r :: rest, boosts =>
    match uim[r.index]? with
    | none => boosts
    | some idxs =>
      applyRerankBoosts uim factor rest
        (idxs.foldl (fun bs i => bs.set i (r.relevance_score.mul factor)) boosts)

/-- The value of the local `jina_rerank_boosts` after the rerank block:
`none` models the variable being unbound (question empty or rerank raised). -/
def rerankBoostsOpt (url_items : List SearchSnippet) (o : RankOptions)
    (rerank : Except Unit (List RerankResult)) : Option (List PyFloat) :=
  if o.question ≠ "" ∧ pyStrip o.question ≠ "" then
    match rerank with
    | .ok results =>
      some (applyRerankBoosts ((uniqueContentMap url_items).map (·.2))
        o.jina_rerank_factor results (List.replicate url_items.length 0))
    | .error _ => none
  else none

/-- The path segments of a candidate (`[s for s in path.split("/") if s]`). -/
def itemSegs (item : SearchSnippet) : List String :=
  ((splitOnChar '/' (extract_url_parts item.url).2.data).filter (· ≠ [])).map String.mk

/-- The index at which line 436 reads `jina_rerank_boosts`: the inner
path-segment loop shadows the outer enumeration index `i`, so after the
loop `i` is the last segment position (the candidate index only when the
path has no segments). -/
def scoreEffIdx (item : SearchSnippet) (i : Nat) : Nat :=
  if (itemSegs item).isEmpty then i else (itemSegs item).length - 1

def scoreHostnameBoost (o : RankOptions) (counts : UrlCounts) (item : SearchSnippet) :
    PyFloat :=
  let hostname := (extract_url_parts item.url).1
  (normalize_count ((odGet? counts.hostname_count hostname).getD 0) counts.total_urls).mul
    o.hostname_boost_factor |>.mul
    (if o.boost_hostnames.contains hostname then 2 else 1)

def scorePathBoost (o : RankOptions) (counts : UrlCounts) (item : SearchSnippet) :
    PyFloat :=
  let segs := itemSegs item
  (List.range segs.length).foldl
    (fun pb i2 =>
      let pr := "/" ++ String.intercalate "/" (segs.take (i2 + 1))
      pb.add ((normalize_count ((odGet? counts.path_prefix_count pr).getD 0)
        counts.total_urls).mul (o.decay_factor.pow i2) |>.mul o.path_boost_factor))
    0

def scoreFreqBoost (o : RankOptions) (counts : UrlCounts) (item : SearchSnippet) :
    PyFloat :=
  if counts.total_urls > 0 then (item.weight.div (pf counts.total_urls)).mul o.freq_factor
  else 0

/-- The clamped sum of the four factors (line 439: `min(max(...))`). -/
def scoreFinal (o : RankOptions) (counts : UrlCounts) (item : SearchSnippet)
    (jina_rerank_boost : PyFloat) : PyFloat :=
  PyFloat.minf (PyFloat.maxf
    ((((scoreHostnameBoost o counts item).add (scorePathBoost o counts item)).add
      (scoreFreqBoost o counts item)).add jina_rerank_boost)
    o.min_boost) o.max_boost

/-- The `BoostedSearchSnippet` built on lines 439-456: the four factors are
stored unclipped; only their sum is clamped into `final_score`. -/
def mkBoosted (o : RankOptions) (counts : UrlCounts) (item : SearchSnippet)
    (jina_rerank_boost : PyFloat) : BoostedSearchSnippet :=
  { toSearchSnippet := item,
    freq_boost := scoreFreqBoost o counts item,
    hostname_boost := scoreHostnameBoost o counts item,
    path_boost := scorePathBoost o counts item,
    jina_rerank_boost := jina_rerank_boost,
    final_score := scoreFinal o counts item jina_rerank_boost,
    score := scoreFinal o counts item jina_rerank_boost,
    merged := smart_merge_strings item.title item.description }

/-- The body of one iteration of the scoring loop of `rank_urls` (lines
401-458) for a valid item. -/
def scoreItem (o : RankOptions) (counts : UrlCounts) (boosts? : Option (List PyFloat))
    (i : Nat) (item : SearchSnippet) : Except String BoostedSearchSnippet :=
  match boosts? with
  | none => .error "UnboundLocalError: jina_rerank_boosts"
  | some bs =>
    match bs[scoreEffIdx item i]? with
    | none => .error "IndexError: jina_rerank_boosts"
    | some jina_rerank_boost => .ok (mkBoosted o counts item jina_rerank_boost)

/-- The per-candidate scoring loop of `rank_urls` (lines 399-458): invalid
items (empty `url`) are skipped, the first raised exception propagates. -/
def scoreLoop (o : RankOptions) (counts : UrlCounts) (boosts? : Option (List PyFloat)) :
    List (Nat × SearchSnippet) → Except String (List BoostedSearchSnippet)
  | [] => .ok []
  | (i, item) :: rest =>
    if item.url = "" then scoreLoop o counts boosts? rest
    else
      match scoreItem o counts boosts? i item with
      | .error e => .error e
      | .ok b => (scoreLoop o counts boosts? rest).map (fun tail => b :: tail)

def insertDescByScore (x : BoostedSearchSnippet) :
    List BoostedSearchSnippet → List BoostedSearchSnippet
  | [] => [x]
  | y :: ys =>
    if PyFloat.ltb y.final_score x.final_score then x :: y :: ys
    else y :: insertDescByScore x ys

/-- Python `list.sort(key=lambda x: x.final_score, reverse=True)`: stable
descending sort. -/
def sortByFinalScoreDesc (l : List BoostedSearchSnippet) : List BoostedSearchSnippet :=
  l.foldl (fun acc x => insertDescByScore x acc) []

/-- `rank_urls` (url_tools.py lines 338-462). -/
def rank_urls (url_items : List SearchSnippet) (o : RankOptions)
    (rerank : Except Unit (List RerankResult)) : Except String (List BoostedSearchSnippet) :=
  (scoreLoop o (count_url_parts url_items) (rerankBoostsOpt url_items o rerank)
    url_items.enum).map sortByFinalScoreDesc

/-! ### `process_url` / `process_urls` (url_tools.py lines 612-787)

The external interactions of each URL (the `read_url` fetch, the last-modified
guess, the spam classifier, and the cherry-pick extraction) are collapsed
into one `UrlOutcome` oracle value per URL; `fmt` stands for
`date_tools.format_date_based_on_type(·, "full")`.  The `asyncio.gather`
fan-out is modelled as sequential application in task order, which §9 of the
spec requires observable equivalence to. -/

structure KnowledgeItem where
  type : String
  question : String
  answer : String
  references : List String := []
  updated : Option String := none
deriving Repr, DecidableEq

structure ReadData where
  title : String := ""
  description : String := ""
  url : String
  content : String
  links : List (String × String) := []
deriving Repr, DecidableEq

/-- A raised Python exception as inspected by `process_url`: its `name` and
`message` attributes (empty when absent) and its `str(...)` rendering. -/
structure PyError where
  name : String := ""
  message : String := ""
  text : String
deriving Repr, DecidableEq

inductive UrlOutcome where
  | readError (e : PyError)
  | readOk (data : ReadData) (guessed_time : Option String) (is_spam : Bool) (cherry : String)
deriving Repr, DecidableEq

def apostrophe : Char := Char.ofNat 39

def msgCouldntResolve : String :=
  "Couldn" ++ String.mk [apostrophe] ++ "t resolve host name"

/-- The host-resolution-error test of `process_url` (lines 755-769). -/
def isHostnameError (e : PyError) : Bool :=
  (e.name == "ParamValidationError" && substrOf "Domain" e.message) ||
  (e.name == "AssertionFailureError" && substrOf "resolve host name" e.message) ||
  substrOf msgCouldntResolve e.text ||
  substrOf "could not be resolved" e.text ||
  substrOf "ERR_CERT_COMMON_NAME_INVALID" e.text ||
  substrOf "ERR_CONNECTION_REFUSED" e.text

structure CrawlState where
  all_knowledge : List KnowledgeItem
  all_urls : UrlDict
  visited_urls : List String
  bad_urls : List String
deriving Repr, DecidableEq

/-- The `except` branch of `process_url` (lines 750-777): record the bad
URL and, on a host-resolution error, the bad hostname. -/
def processUrlError (nurl : String) (e : PyError) (s : CrawlState)
    (bad_hostnames : List String) : CrawlState × List String :=
  ({ s with bad_urls := s.bad_urls ++ [nurl] },
   if isHostnameError e then
     if (extract_url_parts nurl).1 ≠ "" then
       bad_hostnames ++ [(extract_url_parts nurl).1]
     else bad_hostnames
   else bad_hostnames)

/-- The in-page-link insertion loop of `process_url` (lines 738-746):
normalize each `href`, skip failures, insert with weight `0.1`. -/
def addLinks (links : List (String × String)) (m : UrlDict) : UrlDict :=
  links.foldl
    (fun acc link =>
      match normalize_url link.2 with
      | none => acc
      | some nn =>
        (add_to_all_urls { title := link.1, url := nn, description := link.1 }
          acc (pf 1 10)).2)
    m

/-- The `try` body of `process_url` after successful normalization: fetch
outcome dispatch, the no-content and spam checks, the knowledge append, and
the link insertion. -/
def processUrlBody (nurl : String) (outcome : UrlOutcome) (question : String)
    (fmt : String → String) (s : CrawlState) (bad_hostnames : List String) :
    CrawlState × List String :=
  match outcome with
  | .readError e => processUrlError nurl e s bad_hostnames
  | .readOk data guessed_time is_spam cherry =>
    if data.url = "" ∨ data.content = "" then
      processUrlError nurl { text := "No content found" } s bad_hostnames
    else if ¬(data.content.length > 300 ∨ ¬is_spam) then
      processUrlError nurl { text := "Blocked content " ++ nurl } s bad_hostnames
    else
      ({ s with
         all_knowledge := s.all_knowledge ++
           [{ type := "url",
              question := "What do expert say about \"" ++ question ++ "\"?",
              answer := cherry,
              references := [data.url],
              updated := guessed_time.map fmt }],
         all_urls := addLinks data.links s.all_urls },
       bad_hostnames)

/-- `process_url` (lines 672-787).  The `finally` block appends the current
value of `url` — the normalized URL after successful normalization, the
original argument otherwise — to `visited_urls` whenever it is non-empty. -/
def process_url (url : String) (outcome : UrlOutcome) (question : String)
    (fmt : String → String) (s : CrawlState) (bad_hostnames : List String) :
    CrawlState × List String :=
  match normalize_url url with
  | none =>
    ({ s with visited_urls := if url ≠ "" then s.visited_urls ++ [url] else s.visited_urls },
     bad_hostnames)
  | some nurl =>
    let body := processUrlBody nurl outcome question fmt s bad_hostnames
    ({ body.1 with
       visited_urls :=
         if nurl ≠ "" then body.1.visited_urls ++ [nurl] else body.1.visited_urls },
     body.2)

/-- The `asyncio.gather` fan-out of `process_urls`, applied in task order
with the batch-local `bad_hostnames` list threaded through. -/
def crawlBatch (pairs : List (String × UrlOutcome)) (question : String)
    (fmt : String → String) (s : CrawlState) : CrawlState × List String :=
  pairs.foldl
    (fun (acc : CrawlState × List String) p =>
      process_url p.1 p.2 question fmt acc.1 acc.2)
    (s, [])

/-- `process_urls` (lines 612-669): run every URL (each with its oracle
outcome), then evict every ledger key whose hostname was marked bad. -/
def process_urls (pairs : List (String × UrlOutcome)) (question : String)
    (fmt : String → String) (s : CrawlState) : CrawlState :=
  if pairs = [] then s
  else
    let run := crawlBatch pairs question fmt s
    if run.2 ≠ [] then
      { run.1 with
        all_urls := run.1.all_urls.filter
          (fun kv => ¬run.2.contains (extract_url_parts kv.1).1) }
    else run.1

/-! ### `dedup_queries` (jina_dedup.py lines 26-109)

The embedding collaborator (`get_embeddings`) is an oracle: `.ok` carries
the returned embedding vectors (abstract type `α`, compared by the `sim`
cosine-similarity oracle) and token count, `.error` is any raised
exception.  Three return shapes occur in the source: the fast path
`return {"unique_queries": unique_queries}` reads a local that has not been
assigned yet (a `NameError`); the empty-embeddings path and the `except`
path return the bare `new_queries` *list*; the success path returns a
*dict* `{"unique_queries": ...}`. -/

def SIMILARITY_THRESHOLD : PyFloat := pf 86 100

inductive DedupRet where
  | dict (unique_queries : List String)
  | list (queries : List String)
deriving Repr, DecidableEq

/-- One inner comparison loop of `dedup_queries`: compare embedding `ei`
against `emb[j]` for each `j` in `idx`; an out-of-range access raises
(`.error`), to be caught by the surrounding `except`. -/
def dedupCheckAgainst (ei : α) (emb : List α) (sim : α → α → PyFloat) :
    List Nat → Except Unit Bool
  | [] => .ok false
  | j :: rest =>
    match emb[j]? with
    | none => .error ()
    | some ej =>
      if PyFloat.leb SIMILARITY_THRESHOLD (sim ei ej) then .ok true
      else dedupCheckAgainst ei emb sim rest

/-- The main loop of `dedup_queries` (lines 68-91) over the indices of
`new_queries`, accumulating accepted queries and used indices. -/
def dedupLoop (new_queries : List String) (newEmb exEmb : List α)
    (sim : α → α → PyFloat) (exN : Nat) :
    List Nat → List String → List Nat → Except Unit (List String)
  | [], uniq, _ => .ok uniq
  | i :: rest, uniq, used =>
    match newEmb[i]? with
    | none => .error ()
    | some ei =>
      match dedupCheckAgainst ei exEmb sim (List.range exN) with
      | .error _ => .error ()
      | .ok true => dedupLoop new_queries newEmb exEmb sim exN rest uniq used
      | .ok false =>
        match dedupCheckAgainst ei newEmb sim used with
        | .error _ => .error ()
        | .ok true => dedupLoop new_queries newEmb exEmb sim exN rest uniq used
        | .ok false =>
          dedupLoop new_queries newEmb exEmb sim exN rest
            (uniq ++ [(new_queries[i]?).getD ""]) (used ++ [i])

/-- `dedup_queries` (jina_dedup.py lines 26-109). -/
def dedup_queries (new_queries existing_queries : List String)
    (embed : Except Unit (List α × Nat)) (sim : α → α → PyFloat) :
    Except String DedupRet :=
  if new_queries.length = 1 ∧ existing_queries = [] then
    .error "NameError: name unique_queries is not defined"
  else
    match embed with
    | .error _ => .ok (.list new_queries)
    | .ok (all_embeddings, _tokens) =>
      if all_embeddings.isEmpty then .ok (.list new_queries)
      else
        let newEmb := all_embeddings.take new_queries.length
        let exEmb := all_embeddings.drop new_queries.length
        match dedupLoop new_queries newEmb exEmb sim existing_queries.length
            (List.range new_queries.length) [] [] with
        | .error _ => .ok (.list new_queries)
        | .ok uniq => .ok (.dict uniq)

/-! ### `evaluate_answer` (evaluator.py lines 170-211)

The LLM evaluation of each criterion (`perform_evaluation(...).object`) is an
oracle from the criterion to its result dict.  Inside the loop the variable
`result` is reassigned to `result.object` (a dict); the post-loop
`return EvaluationResponse.model_construct(**result.object)` therefore
dereferences `.object` on a dict (or on `None` when nothing was evaluated)
and raises `AttributeError`.  The `ATTRIBUTION` criterion falls into the
`else: print(...); continue` arm and is skipped. -/

inductive EvaluationType where
  | definitive | freshness | plurality | attribution | completeness | strict
deriving Repr, DecidableEq

/-- The `result.object` dict produced by `perform_evaluation` for one
criterion. -/
structure EvalObject where
  pass_eval : Bool
  think : String := ""
  improvement_plan : Option String := none
deriving Repr, DecidableEq

structure EvaluationResponse where
  pass_eval : Bool
  think : String := ""
  type : Option EvaluationType := none
  improvement_plan : Option String := none
deriving Repr, DecidableEq

def evaluateAnswerLoop (perform : EvaluationType → EvalObject) :
    List EvaluationType → Except String EvaluationResponse
  | [] =>
    .error "AttributeError: result has no attribute object"
  | t :: rest =>
    if t = .attribution then evaluateAnswerLoop perform rest
    else
      let obj := perform t
      if ¬obj.pass_eval then
        .ok { pass_eval := obj.pass_eval, think := obj.think, type := some t,
              improvement_plan := obj.improvement_plan }
      else evaluateAnswerLoop perform rest

/-- `evaluate_answer`: evaluate criteria in order, return on the first
failure; reaching the end of the loop (all passed, or nothing evaluated)
raises. -/
def evaluate_answer (evaluation_types : List EvaluationType)
    (perform : EvaluationType → EvalObject) : Except String EvaluationResponse :=
  evaluateAnswerLoop perform evaluation_types

/-! ### agent.py orchestrator fragments -/

structure RepeatEvaluationType where
  type : EvaluationType
  num_evals_required : Nat
deriving Repr, DecidableEq

/-- The evaluation-metrics update on a failed evaluation of the original
question (agent.py lines 836-843): a pure filter — the criterion survives
unless it is the failed type with `num_evals_required ≤ 1`; no counter is
ever decremented. -/
def update_metrics_on_failure (metrics : List RepeatEvaluationType)
    (failed : EvaluationType) : List RepeatEvaluationType :=
  metrics.filter fun e =>
    e.type ≠ failed ∨ (e.type = failed ∧ e.num_evals_required > 1)

structure ActionFlags where
  allow_answer : Bool
  allow_search : Bool
  allow_read : Bool
  allow_reflect : Bool
  allow_coding : Bool
deriving Repr, DecidableEq

/-- The per-step action gating of agent.py lines 612-650: the FRESHNESS
first-step restriction, the derived flags (`allow_read` needs a non-empty
`weighted_urls`, `allow_search` needs `len(weighted_urls) < 200`,
`allow_reflect` needs `len(gaps) <= MAX_REFLECT_PER_STEP`), then the fixed
step-1..step-4 opening sequence that overwrites everything. -/
def compute_step_flags (fl : ActionFlags) (total_step step : Nat)
    (freshness_required : Bool) (weighted_urls_len gaps_len max_reflect : Nat) :
    ActionFlags :=
  let fl :=
    if total_step = 1 ∧ freshness_required then
      { fl with allow_answer := false, allow_reflect := false }
    else fl
  let fl := { fl with
    allow_read := fl.allow_read && weighted_urls_len ≠ 0,
    allow_search := fl.allow_search && weighted_urls_len < 200,
    allow_reflect := fl.allow_reflect && gaps_len ≤ max_reflect }
  if step = 1 then ⟨false, true, false, false, false⟩
  else if step = 2 then ⟨false, false, true, false, false⟩
  else if step = 3 then ⟨true, false, false, false, false⟩
  else if step = 4 then ⟨false, false, false, true, false⟩
  else fl

/-- The `weighted_urls` recomputation of agent.py lines 600-608 (performed
whenever the ledger is non-empty): filter, rank, then keep at most two
per hostname. -/
def weighted_urls_pipeline (all_urls : UrlDict)
    (visited bad_hostnames only_hostnames boost_hostnames : List String)
    (question : String) (rerank : Except Unit (List RerankResult)) :
    Except String (List BoostedSearchSnippet) :=
  (rank_urls (filter_urls all_urls visited bad_hostnames only_hostnames)
    { question := question, boost_hostnames := boost_hostnames } rerank).map
    (fun l => keep_k_per_hostname l 2)

/-- The trivial-question short-circuit condition of agent.py line 756:
`total_step == 1 and not this_step.references and not no_direct_answer`. -/
def trivial_direct_answer (total_step : Nat) (references : List String)
    (no_direct_answer : Bool) : Bool :=
  total_step == 1 && references.isEmpty && !no_direct_answer

/-- A Python runtime value, as far as the beast-mode guard compares one:
pydantic model iteration yields `(field_name, value)` tuples, and Python
`==` between values of different shapes is `False`. -/
inductive PyVal where
  | str (s : String)
  | tuple2 (a b : PyVal)
  | obj (tag : String)
deriving Repr, DecidableEq

def pyValEq : PyVal → PyVal → Bool
  | .str a, .str b => a == b
  | .tuple2 a b, .tuple2 c d => pyValEq a c && pyValEq b d
  | .obj a, .obj b => a == b
  | .str _, .tuple2 _ _ => false
  | .str _, .obj _ => false
  | .tuple2 _ _, .str _ => false
  | .tuple2 _ _, .obj _ => false
  | .obj _, .str _ => false
  | .obj _, .tuple2 _ _ => false

/-- Python `x in model` for a pydantic v2 `BaseModel`: `BaseModel` defines
`__iter__` (yielding `(field_name, value)` tuples) and no `__contains__`,
so membership falls back to iteration and equality against each tuple. -/
def pyInModel (x : String) (fieldItems : List (String × PyVal)) : Bool :=
  fieldItems.any fun kv => pyValEq (.str x) (.tuple2 (.str kv.1) kv.2)

/-- The state of the `AnswerAction` pydantic model reaching agent.py line
1230. -/
structure AnswerActionModel where
  think : String := ""
  answer : String
  references : List String := []
  is_final : Option Bool := none
  md_answer : Option String := none
deriving Repr, DecidableEq

/-- The `(field_name, value)` items pydantic iteration yields for an
`AnswerAction` (the non-string values are opaque to the comparison with a
string, so their rendering does not matter). -/
def answerActionFieldItems (a : AnswerActionModel) : List (String × PyVal) :=
  [("action", .str "answer"), ("think", .str a.think), ("answer", .str a.answer),
   ("references", .obj "list"),
   ("is_final", .obj (match a.is_final with
     | some true => "True" | some false => "False" | none => "None")),
   ("md_answer", .obj "str-or-none")]

def pyTruthyOptBool : Option Bool → Bool
  | some b => b
  | none => false

/-- Agent.py line 1230: `if "is_final" not in this_step or not
this_step.is_final:` — the beast-mode entry guard. -/
def beast_mode_triggered (a : AnswerActionModel) : Bool :=
  !(pyInModel "is_final" (answerActionFieldItems a)) || !(pyTruthyOptBool a.is_final)

structure ResearchRecord where
  visited_urls : List String
  read_urls : List String
  all_urls : List String
deriving Repr, DecidableEq

/-- The record returned by `get_response` (agent.py lines 1347-1353), as a
function of the session-final state. -/
def get_response_record (weighted_urls : List BoostedSearchSnippet)
    (visited_urls bad_urls : List String) (num_returned_urls : Nat) :
    ResearchRecord :=
  { visited_urls := (weighted_urls.take num_returned_urls).map (·.url),
    read_urls := visited_urls.filter (fun u => ¬bad_urls.contains u),
    all_urls := weighted_urls.map (·.url) }

/-! ### Concrete scenario inputs for the claim theorems -/

/-- A ledger entry with fixed title and description. -/
def snipT (u : String) : SearchSnippet :=
  { title := "t", url := u, description := "d", weight := 1 }

def c1Ledger : UrlDict := [("https://h.com/x", snipT "https://h.com/x")]

def c1Visited : List String := ["https://h.com/x"]

/-- The session-final `weighted_urls` of a session whose single known URL
has been visited: the visited filter leaves no candidate. -/
def c1Weighted : Except String (List BoostedSearchSnippet) :=
  weighted_urls_pipeline c1Ledger c1Visited [] [] [] "q" (.ok [])

/-- An evaluator oracle on which every criterion passes. -/
def c2AllPass : EvaluationType → EvalObject :=
  fun _ => { pass_eval := true, think := "ok" }

/-- An evaluator oracle on which exactly the STRICT criterion fails. -/
def c2FailStrict : EvaluationType → EvalObject :=
  fun t =>
    if t = .strict then { pass_eval := false, think := "needs work" }
    else { pass_eval := true, think := "ok" }

def c6Item : SearchSnippet := snipT "https://h.com/x"

/-- A candidate whose accumulated weight dominates the candidate count. -/
def c7Big : SearchSnippet :=
  { title := "t", url := "https://h.com/x", description := "d", weight := 100 }

def c7A : SearchSnippet :=
  { title := "ta", url := "https://h.com/a", description := "da", weight := 1 }

def c7B : SearchSnippet :=
  { title := "tb", url := "https://k.com/b", description := "db", weight := 1 }

def c8Url (i : Nat) : String :=
  if i = 0 then "https://good.org/top" else "https://b.com/p" ++ toString i

/-- A ledger of 200 known URLs, 199 of them under the caller-banned
hostname `b.com` (caller-supplied `bad_hostnames` never evicts ledger
entries; it only filters candidates). -/
def c8Ledger : UrlDict :=
  (List.range 200).map fun i => (c8Url i, snipT (c8Url i))

def c8Weighted : Except String (List BoostedSearchSnippet) :=
  weighted_urls_pipeline c8Ledger [] ["b.com"] [] [] "q" (.ok [])

/-- The `allow_search` flag computed at a step (past the step-1..4 opening
sequence) from the `c8Ledger` session state. -/
def c8AllowSearch : Bool :=
  match c8Weighted with
  | .ok l =>
    (compute_step_flags ⟨true, true, true, true, true⟩ 7 7 false l.length 1 1).allow_search
  | .error _ => false

def c9State : CrawlState :=
  { all_knowledge := [], all_urls := [("https://h.com/x", snipT "https://h.com/x")],
    visited_urls := [], bad_urls := [] }

/-- One visit whose fetch fails with a host-resolution error. -/
def c9Pairs : List (String × UrlOutcome) :=
  [("https://h.com/x", .readError { text := "could not be resolved" })]

def c9wData : ReadData :=
  { url := "https://h.com/x", content := "plenty of good content", links := [] }

/-- One visit that succeeds (readable content, not spam, no links). -/
def c9wPairs : List (String × UrlOutcome) :=
  [("https://h.com/x", .readOk c9wData none false "summary")]

/-! ### Supporting lemmas -/

theorem odContains_append {α : Type} (m x : List (String × α)) (k : String)
    (h : odContains m k = true) : odContains (m ++ x) k = true := by
  simp only [odContains, List.any_append, Bool.or_eq_true]
  exact Or.inl h

theorem odContains_odSet {α : Type} (m : List (String × α)) (k2 : String) (v : α)
    (k : String) (h : odContains m k = true) : odContains (odSet m k2 v) k = true := by
  induction m with
  | nil => simp [odContains] at h
  | cons kv rest ih =>
    simp only [odContains, List.any_cons, Bool.or_eq_true] at h
    by_cases hk : kv.1 = k2
    · simp only [odSet, if_pos hk, odContains, List.any_cons, Bool.or_eq_true]
      exact h
    · simp only [odSet, if_neg hk, odContains, List.any_cons, Bool.or_eq_true]
      rcases h with h | h
      · exact Or.inl h
      · exact Or.inr (ih h)

theorem add_to_all_urls_contains (r : SearchSnippet) (m : UrlDict) (d : PyFloat)
    (k : String) (h : odContains m k = true) :
    odContains (add_to_all_urls r m d).2 k = true := by
  unfold add_to_all_urls
  cases normalize_url r.url with
  | none => exact h
  | some nu =>
    by_cases hc : odContains m nu = true
    · simp only [hc, if_true]
      exact odContains_odSet m nu _ k h
    · simp only [hc, if_false]
      exact odContains_append m _ k h

theorem addLinks_contains (links : List (String × String)) :
    ∀ (m : UrlDict) (k : String), odContains m k = true →
      odContains (addLinks links m) k = true := by
  induction links with
  | nil => intro m k h; simpa [addLinks] using h
  | cons link rest ih =>
    intro m k h
    simp only [addLinks, List.foldl_cons] at *
    cases normalize_url link.2 with
    | none => exact ih m k h
    | some nn => exact ih _ k (add_to_all_urls_contains _ m _ k h)

theorem processUrlBody_all_urls_contains (nurl : String) (o : UrlOutcome)
    (q : String) (fmt : String → String) (s : CrawlState) (bh : List String)
    (k : String) (h : odContains s.all_urls k = true) :
    odContains (processUrlBody nurl o q fmt s bh).1.all_urls k = true := by
  unfold processUrlBody
  split
  · exact h
  · split
    · exact h
    · split
      · exact h
      · exact addLinks_contains _ s.all_urls k h

theorem processUrlBody_visited (nurl : String) (o : UrlOutcome)
    (q : String) (fmt : String → String) (s : CrawlState) (bh : List String) :
    (processUrlBody nurl o q fmt s bh).1.visited_urls = s.visited_urls := by
  unfold processUrlBody
  split
  · rfl
  · split
    · rfl
    · split <;> rfl

theorem normalize_url_empty : normalize_url "" = none := by decide

theorem process_url_all_urls_contains (u : String) (o : UrlOutcome) (q : String)
    (fmt : String → String) (s : CrawlState) (bh : List String) (k : String)
    (h : odContains s.all_urls k = true) :
    odContains (process_url u o q fmt s bh).1.all_urls k = true := by
  unfold process_url
  cases normalize_url u with
  | none => exact h
  | some nurl => exact processUrlBody_all_urls_contains nurl o q fmt s bh k h

theorem process_url_visited (u : String) (o : UrlOutcome) (q : String)
    (fmt : String → String) (s : CrawlState) (bh : List String)
    (hu : normalize_url u = some u) :
    (process_url u o q fmt s bh).1.visited_urls = s.visited_urls ++ [u] := by
  have hne : u ≠ "" := by
    intro h0
    rw [h0] at hu
    rw [normalize_url_empty] at hu
    exact Option.noConfusion hu
  unfold process_url
  rw [hu]
  simp only [if_pos hne]
  rw [processUrlBody_visited]

theorem crawlBatch_subset (q : String) (fmt : String → String) :
    ∀ (pairs : List (String × UrlOutcome)) (s : CrawlState) (bh : List String),
      (∀ p ∈ pairs, normalize_url p.1 = some p.1 ∧ odContains s.all_urls p.1 = true) →
      (∀ v ∈ s.visited_urls, odContains s.all_urls v = true) →
      ∀ v ∈ (pairs.foldl
          (fun (acc : CrawlState × List String) p =>
            process_url p.1 p.2 q fmt acc.1 acc.2) (s, bh)).1.visited_urls,
        odContains
          ((pairs.foldl
            (fun (acc : CrawlState × List String) p =>
              process_url p.1 p.2 q fmt acc.1 acc.2) (s, bh)).1.all_urls) v = true := by
  intro pairs
  induction pairs with
  | nil => intro s bh _ hs v hv; exact hs v hv
  | cons p rest ih =>
    intro s bh hp hs
    simp only [List.foldl_cons]
    have hp1 := hp p (List.mem_cons_self p rest)
    apply ih (process_url p.1 p.2 q fmt s bh).1 (process_url p.1 p.2 q fmt s bh).2
    · intro p2 hp2
      have h2 := hp p2 (List.mem_cons_of_mem p hp2)
      exact ⟨h2.1, process_url_all_urls_contains p.1 p.2 q fmt s bh p2.1 h2.2⟩
    · intro v hv
      rw [process_url_visited p.1 p.2 q fmt s bh hp1.1] at hv
      rcases List.mem_append.mp hv with hv | hv
      · exact process_url_all_urls_contains p.1 p.2 q fmt s bh v (hs v hv)
      · have hvp : v = p.1 := by simpa using hv
        subst hvp
        exact process_url_all_urls_contains p.1 p.2 q fmt s bh p.1 hp1.2

theorem mem_insertDescByScore (x y : BoostedSearchSnippet)
    (l : List BoostedSearchSnippet) (h : y ∈ insertDescByScore x l) :
    y = x ∨ y ∈ l := by
  induction l with
  | nil => simpa [insertDescByScore] using h
  | cons z zs ih =>
    simp only [insertDescByScore] at h
    split at h
    · rcases List.mem_cons.mp h with h | h
      · exact Or.inl h
      · exact Or.inr h
    · rcases List.mem_cons.mp h with h | h
      · exact Or.inr (List.mem_cons.mpr (Or.inl h))
      · rcases ih h with h | h
        · exact Or.inl h
        · exact Or.inr (List.mem_cons.mpr (Or.inr h))

theorem mem_foldl_insertDescByScore (y : BoostedSearchSnippet) :
    ∀ (l acc : List BoostedSearchSnippet),
      y ∈ l.foldl (fun acc x => insertDescByScore x acc) acc →
      y ∈ acc ∨ y ∈ l := by
  intro l
  induction l with
  | nil => intro acc h; exact Or.inl h
  | cons z zs ih =>
    intro acc h
    simp only [List.foldl_cons] at h
    rcases ih (insertDescByScore z acc) h with h | h
    · rcases mem_insertDescByScore z y acc h with h | h
      · exact Or.inr (List.mem_cons.mpr (Or.inl h))
      · exact Or.inl h
    · exact Or.inr (List.mem_cons.mpr (Or.inr h))

theorem mem_sortByFinalScoreDesc (l : List BoostedSearchSnippet)
    (y : BoostedSearchSnippet) (h : y ∈ sortByFinalScoreDesc l) : y ∈ l := by
  rcases mem_foldl_insertDescByScore y l [] h with h | h
  · simp at h
  · exact h

theorem scoreItem_final_score (o : RankOptions) (counts : UrlCounts)
    (boosts? : Option (List PyFloat)) (i : Nat) (item : SearchSnippet)
    (b : BoostedSearchSnippet) (h : scoreItem o counts boosts? i item = .ok b) :
    b.final_score =
      PyFloat.minf (PyFloat.maxf
        (((b.hostname_boost.add b.path_boost).add b.freq_boost).add b.jina_rerank_boost)
        o.min_boost) o.max_boost := by
  cases boosts? with
  | none =>
    simp only [scoreItem] at h
    exact Except.noConfusion h
  | some bs =>
    simp only [scoreItem] at h
    cases hg : bs[scoreEffIdx item i]? with
    | none => rw [hg] at h; exact Except.noConfusion h
    | some jb =>
      rw [hg] at h
      cases h
      rfl

theorem scoreLoop_final_score (o : RankOptions) (counts : UrlCounts)
    (boosts? : Option (List PyFloat)) :
    ∀ (ps : List (Nat × SearchSnippet)) (l : List BoostedSearchSnippet),
      scoreLoop o counts boosts? ps = .ok l →
      ∀ r ∈ l, r.final_score =
        PyFloat.minf (PyFloat.maxf
          (((r.hostname_boost.add r.path_boost).add r.freq_boost).add r.jina_rerank_boost)
          o.min_boost) o.max_boost := by
  intro ps
  induction ps with
  | nil =>
    intro l h r hr
    simp only [scoreLoop] at h
    cases h
    simp at hr
  | cons p rest ih =>
    intro l h r hr
    rw [scoreLoop] at h
    split at h
    · exact ih l h r hr
    · split at h
      · exact Except.noConfusion h
      · rename_i b hb
        cases ho : scoreLoop o counts boosts? rest with
        | error e => rw [ho] at h; exact Except.noConfusion h
        | ok tail =>
          rw [ho] at h
          simp only [Except.map] at h
          cases h
          rcases List.mem_cons.mp hr with hr | hr
          · subst hr
            exact scoreItem_final_score o counts boosts? _ _ r hb
          · exact ih tail ho r hr

/-! ### Claim theorems -/

/-- Claim C1, counterexample.  A completed session whose only known URL
`https://h.com/x` was visited ends with `weighted_urls = []`; the record
returned by `get_response` then has `visited_urls = []` — not the
visited list of the session `["https://h.com/x"]` — and `all_urls = []` — not
the key list of the ledger `["https://h.com/x"]`.  Only the `read_urls` field
matches the claim. -/
theorem C1_response_record_counterexample :
    odKeys c1Ledger = ["https://h.com/x"] ∧
    c1Weighted = .ok [] ∧
    get_response_record [] c1Visited [] 100 =
      { visited_urls := [], read_urls := ["https://h.com/x"], all_urls := [] } :=
  ⟨by decide, by decide, by decide⟩

/-- Claim C1, amended: the record returned by `get_response` has
`read_urls` = the visited list with bad URLs removed (as claimed), while
`visited_urls` holds the URLs of the first `num_returned_urls` entries of
the final ranked/filtered/diversified `weighted_urls` list and `all_urls`
holds the URLs of all `weighted_urls` entries — neither field is the
visited list of the session nor the key set of the ledger. -/
theorem C1_response_record_amended (weighted : List BoostedSearchSnippet)
    (visited bad : List String) (n : Nat) :
    (∀ u, u ∈ (get_response_record weighted visited bad n).read_urls ↔
      u ∈ visited ∧ ¬bad.contains u = true) ∧
    (get_response_record weighted visited bad n).visited_urls =
      (weighted.take n).map (·.url) ∧
    (get_response_record weighted visited bad n).all_urls = weighted.map (·.url) := by
  refine ⟨fun u => ?_, rfl, rfl⟩
  simp [get_response_record, List.mem_filter]

/-- Claim C2.  `evaluate_answer` does evaluate the criteria in order and
return at the first failing criterion (second conjunct), but when every
criterion passes it raises `AttributeError` (the loop rebinds `result` to
the `result.object` dict, and the post-loop return dereferences `.object`
on that dict) instead of returning a passing evaluation — so the
pass branch of the orchestrator is never reached through a full evaluation. -/
theorem C2_evaluate_answer_all_pass_raises :
    evaluate_answer [.definitive, .strict] c2FailStrict =
      .ok { pass_eval := false, think := "needs work", type := some .strict } ∧
    evaluate_answer [.definitive, .strict] c2AllPass =
      .error "AttributeError: result has no attribute object" := by decide

/-- Claim C3.  The failure update of the evaluation
metrics of the original question (agent.py lines 836-843) never decrements `num_evals_required`:
after a STRICT failure with counter 2 the criterion survives with counter
still 2, a second failure leaves it unchanged again (so it is never
removed), and removal happens exactly when the stored counter is already
≤ 1 — not when a decremented counter reaches zero. -/
theorem C3_metrics_not_decremented :
    update_metrics_on_failure [⟨.strict, 2⟩] .strict = [⟨.strict, 2⟩] ∧
    update_metrics_on_failure (update_metrics_on_failure [⟨.strict, 2⟩] .strict) .strict =
      [⟨.strict, 2⟩] ∧
    update_metrics_on_failure [⟨.strict, 1⟩] .strict = [] := by decide

/-- Claim C4.  At step 1 the gating unconditionally disables `answer`
(first conjunct), so a schema-conformant generation cannot be an answer;
and even when an answer action does reach the short-circuit (second
conjunct: the line-756 condition holds for a step-1 answer with no
references and `no_direct_answer=False`, and `read_urls` would be empty),
the beast-mode guard on line 1230 still fires afterwards
(`"is_final" not in this_step` is always true for a pydantic model, whose
iteration yields field tuples), so the session does not terminate with
that answer: beast mode regenerates it. -/
theorem C4_step1_direct_answer :
    (compute_step_flags ⟨true, true, true, true, false⟩ 1 1 false 0 1 1).allow_answer
      = false ∧
    trivial_direct_answer 1 [] false = true ∧
    (get_response_record [] [] [] 100).read_urls = [] ∧
    beast_mode_triggered { answer := "hello", is_final := some true } = true := by decide

/-- Claim C5.  `dedup_queries` raises `NameError` on its fast path (one
new query, no existing queries): line 47 returns the local
`unique_queries` before it is ever assigned.  And when the embedding
collaborator fails, the `except` branch returns the bare `new_queries`
list instead of the `{"unique_queries": ...}` dict, so the
`[...]["unique_queries"]` subscript in the orchestrator raises `TypeError`.  Both outcomes
propagate out of the step. -/
theorem C5_dedup_queries_raises :
    dedup_queries (α := Unit) ["any query"] [] (.ok ([()], 0)) (fun _ _ => 0) =
      .error "NameError: name unique_queries is not defined" ∧
    dedup_queries (α := Unit) ["a", "b"] [] (.error ()) (fun _ _ => 0) =
      .ok (.list ["a", "b"]) := by decide

/-- Claim C6.  When the rerank collaborator raises, `rank_urls` does not
degrade the boost to 0: `jina_rerank_boosts` is assigned only after the
awaited call succeeds, so the later read on line 436 raises
`UnboundLocalError`, which propagates out of `rank_urls` and fails the
step; the same happens when no rerank is attempted because the question
is empty. -/
theorem C6_rank_urls_raises :
    rank_urls [c6Item] { question := "q" } (.error ()) =
      .error "UnboundLocalError: jina_rerank_boosts" ∧
    rank_urls [c6Item] { question := "" } (.ok [⟨0, 1⟩]) =
      .error "UnboundLocalError: jina_rerank_boosts" := by decide

/-- Claim C7, counterexample.  The individual factors are not clipped to
`[min_boost, max_boost]`: a single candidate with accumulated weight 100
gets `freq_boost = 100/2 = 50 > 5` stored unclipped (only `final_score`
is clamped, to 5).  And the rerank boost applied to a candidate is not
the relevance of its own merged content: with relevance 1 for candidate 0
and 1/2 for candidate 1, candidate 1 (one path segment, so the shadowed
loop index is 0) receives `1 · 0.8 = 4/5` instead of `1/2 · 0.8 = 2/5`. -/
theorem C7_boost_clipping_counterexample :
    (rank_urls [c7Big] { question := "q" } (.ok [])).map
      (fun l => l.map fun r =>
        (PyFloat.eqb r.freq_boost (pf 50), PyFloat.leb r.freq_boost (pf 5),
         PyFloat.eqb r.final_score (pf 5))) = .ok [(true, false, true)] ∧
    (rank_urls [c7A, c7B] { question := "q" } (.ok [⟨0, 1⟩, ⟨1, pf 1 2⟩])).map
      (fun l => l.map fun r =>
        (r.url, PyFloat.eqb r.jina_rerank_boost (pf 4 5),
         PyFloat.eqb r.jina_rerank_boost (pf 2 5))) =
      .ok [("https://h.com/a", true, false), ("https://k.com/b", true, false)] := by decide

/-- Claim C8, counterexample.  `allow_search` is gated on
`len(weighted_urls) < 200` (agent.py line 621), not on the number of
ledger keys: with 200 known URLs (199 under the caller-banned hostname
`b.com`, which filters candidates but never leaves the ledger) the
diversified candidate list is short and searching is still permitted, so
searching does not stop when 200 or more URLs are known. -/
theorem C8_search_gate_counterexample :
    (odKeys c8Ledger).length = 200 ∧ c8AllowSearch = true := by
  refine ⟨?_, by decide⟩
  simp [c8Ledger, odKeys]

/-- Claim C8, amended: past the fixed step-1..4 opening sequence, the
search action is permitted only when the length of `weighted_urls` — the
filtered, ranked, hostname-diversified candidate list produced by
`weighted_urls_pipeline` — is below 200; the ledger key count is not
consulted. -/
theorem C8_search_gate_amended (fl : ActionFlags) (total_step step : Nat)
    (freshness : Bool) (wlen gaps_len max_reflect : Nat) (hstep : 4 < step)
    (h : (compute_step_flags fl total_step step freshness wlen gaps_len
      max_reflect).allow_search = true) :
    wlen < 200 := by
  unfold compute_step_flags at h
  rw [if_neg (by omega), if_neg (by omega), if_neg (by omega), if_neg (by omega)] at h
  simp only [Bool.and_eq_true, decide_eq_true_eq] at h
  exact h.2

/-- Witness for the amended claim C8: with all actions previously allowed,
an empty candidate list, and step 7, the hypotheses hold and the
conclusion instantiates to `0 < 200`. -/
theorem C8_search_gate_amended_witness : (0 : Nat) < 200 :=
  C8_search_gate_amended ⟨true, true, true, true, true⟩ 7 7 false 0 1 1
    (by decide) (by decide)

/-- Claim C7, amended: in `rank_urls` the four additive factors are stored
unclipped on each ranked candidate; what is clipped to
`[min_boost, max_boost]` is their sum, stored as `final_score`.  (The
rerank boost itself is read at the shadowed path-segment index, see the
counterexample.)  For every successful ranking, the `final_score` of every returned
candidate equals `min(max(hostname_boost + path_boost + freq_boost +
jina_rerank_boost, min_boost), max_boost)` over its stored factors. -/
theorem C7_final_score_amended (url_items : List SearchSnippet) (o : RankOptions)
    (rerank : Except Unit (List RerankResult)) :
    match rank_urls url_items o rerank with
    | .ok l => l.all (fun r => decide (r.final_score =
        PyFloat.minf (PyFloat.maxf
          (((r.hostname_boost.add r.path_boost).add r.freq_boost).add r.jina_rerank_boost)
          o.min_boost) o.max_boost)) = true
    | .error _ => True := by
  cases hr : rank_urls url_items o rerank with
  | error e => trivial
  | ok l =>
    simp only []
    apply List.all_eq_true.mpr
    intro r hrm
    apply decide_eq_true
    unfold rank_urls at hr
    cases hs : scoreLoop o (count_url_parts url_items)
        (rerankBoostsOpt url_items o rerank) url_items.enum with
    | error e => rw [hs] at hr; exact Except.noConfusion hr
    | ok l0 =>
      rw [hs] at hr
      simp only [Except.map] at hr
      cases hr
      exact scoreLoop_final_score o (count_url_parts url_items)
        (rerankBoostsOpt url_items o rerank) url_items.enum l0 hs r
        (mem_sortByFinalScoreDesc l0 r hrm)

/-- Claim C9, counterexample.  A visit whose fetch fails with a
host-resolution error appends the URL to the visited list *and* evicts
every URL of that hostname from the ledger, so afterwards the visited
entry `https://h.com/x` is not a ledger key: the visited list is not a
sub-collection of the keys of the ledger. -/
theorem C9_visited_subset_counterexample :
    (process_urls c9Pairs "q" id c9State).visited_urls = ["https://h.com/x"] ∧
    (process_urls c9Pairs "q" id c9State).all_urls = [] := by decide

/-- Claim C9, amended: after a `process_urls` step in which no hostname is
marked bad (so no eviction runs) and whose processed URLs are all
self-normalizing ledger keys, every entry of the visited list is a ledger
key, provided that held before the step.  (The unamended claim fails on
bad-hostname eviction, on normalization failures — the original string is
appended to `visited` — and on non-self-normalizing keys.) -/
theorem C9_visited_subset_amended (pairs : List (String × UrlOutcome))
    (question : String) (fmt : String → String) (s : CrawlState)
    (hnoevict : (crawlBatch pairs question fmt s).2 = [])
    (hpairs : ∀ p ∈ pairs, normalize_url p.1 = some p.1 ∧
      odContains s.all_urls p.1 = true)
    (hsub : ∀ v ∈ s.visited_urls, odContains s.all_urls v = true) :
    (process_urls pairs question fmt s).visited_urls.all
      (fun v => odContains (process_urls pairs question fmt s).all_urls v) = true := by
  unfold process_urls
  by_cases hp : pairs = []
  · subst hp
    simp only [if_pos rfl]
    exact List.all_eq_true.mpr hsub
  · rw [if_neg hp, if_neg (by simp [hnoevict])]
    apply List.all_eq_true.mpr
    intro v hv
    exact crawlBatch_subset question fmt pairs s [] hpairs hsub v hv

/-- Witness for the amended claim C9: one successful visit of the
self-normalizing ledger key `https://h.com/x` (readable content, not
spam); the hypotheses hold by computation and every visited entry is a
ledger key afterwards. -/
theorem C9_visited_subset_amended_witness :
    (process_urls c9wPairs "q" id c9State).visited_urls.all
      (fun v => odContains (process_urls c9wPairs "q" id c9State).all_urls v) = true :=
  C9_visited_subset_amended c9wPairs "q" id c9State (by decide) (by decide)
    (by decide)

/-- Claim C10.  `normalize_url` percent-decodes every path segment
unconditionally (lines 174-183 apply `unquote` without the re-encode
check the spec prescribes — and which the same function does apply to
query values and fragments), so normalization is not idempotent:
`https://a.com/%2541` normalizes to `https://a.com/%41`, which
re-normalizes to `https://a.com/A`. -/
theorem C10_normalize_url_not_idempotent :
    normalize_url "https://a.com/%2541" = some "https://a.com/%41" ∧
    normalize_url "https://a.com/%41" = some "https://a.com/A" ∧
    (normalize_url "https://a.com/%2541").bind (fun u => normalize_url u) ≠
      normalize_url "https://a.com/%2541" := by decide

end DeepResearch
